import Mathlib

/-!
Verification of the signal-processing and rendering pipeline of the
`react-audio-waveform` component library.

The development shallowly embeds the numeric core of the library:

* `getCanvasBarStyles` (src/waveform/util-canvas.ts): CSS-variable / prop
  resolution of bar geometry with JS-truthiness defaulting.
* the fixed-width resampling loops of `LiveRecorderCanvas`
  (src/recorder/live-recorder/compound.tsx) and of
  `LiveStreamingRecorderCanvas`
  (src/recorder/live-streaming/stack-recorder, fixed-width branch).
* the growing-mode canvas-width computation of
  `LiveStreamingRecorderCanvas` (`drawWaveform`, `growWidth` branch).
* the auto-scroll controller of `RecordingWaveform`
  (src/recorder/recording-waveform.tsx).
* the RMS amplitude sampler (`sampleAmplitude`) and the pause/resume/new
  session state machine of `useRecordingAmplitudes`
  (src/audio-waveform.tsx).
* the `startSampling` / `stopSampling` interval guards of
  `useRecordingAmplitudes` and `LiveStreamingRecorder`.
* the signal decoder and the playhead seek mapper, which are exported by
  the package but whose implementation files are not among the sources;
  these two are modelled from the spec (see their doc comments).

Machine numbers are modelled by exact rationals (`ℚ`); the square root
used by the RMS computation lives in `ℝ`.  JS array reads that may go out
of range are modelled with `Option`, `undefined`/falsy fallback (`|| 0`)
with `Option.getD`.
-/

namespace AudioWaveform

/-! ## JS values and truthiness (for `getCanvasBarStyles`) -/

/-- A JavaScript value as it can appear in a `BarStyle` field: `undefined`,
a number, or a string. -/
inductive JSVal where
  | undef : JSVal
  | num : ℚ → JSVal
  | str : String → JSVal
deriving DecidableEq

/-- JS truthiness of a `JSVal`: `undefined`, `0` and `""` are falsy. -/
def JSVal.truthy : JSVal → Bool
  | .undef => false
  | .num q => q != 0
  | .str s => s != ""

/-- The `BarStyle` interface of src/waveform/util-canvas.ts: optional
width / gap / radius fields, each a number or a CSS string. -/
structure BarStyle where
  width : JSVal := .undef
  gap : JSVal := .undef
  radius : JSVal := .undef
deriving DecidableEq

/-- The `CanvasBarStyles` result record of `getCanvasBarStyles`. -/
structure CanvasBarStyles where
  barWidth : ℚ
  gap : ℚ
  barRadius : ℚ
  barColor : String
deriving DecidableEq

/-- One field of `getCanvasBarStyles`: the JS conditional
`v ? (typeof v === "number" ? v : Number.parseFloat(v)) : dflt`.
`pf` stands for `Number.parseFloat` on strings. -/
def styleField (pf : String → ℚ) (v : JSVal) (dflt : ℚ) : ℚ :=
  if v.truthy then
    match v with
    | .num q => q
    | .str s => pf s
    | .undef => dflt
  else dflt

/-- `getCanvasBarStyles` of src/waveform/util-canvas.ts.  `color` is the
computed CSS color of the canvas, `pf` models `Number.parseFloat`. -/
def getCanvasBarStyles (pf : String → ℚ) (color : String) (bs : BarStyle) :
    CanvasBarStyles :=
  { barWidth := styleField pf bs.width 3
    gap := styleField pf bs.gap 1
    barRadius := styleField pf bs.radius 1.5
    barColor := color }

/-! ## JS array access -/

/-- JS array read `l[i]`: `undefined` (here `none`) when the index is out
of range, including negative indices. -/
def jsGet (l : List ℚ) (i : ℤ) : Option ℚ :=
  if 0 ≤ i then l[i.toNat]? else none

/-- The `x || 0` fallback applied to a possibly-`undefined` numeric read:
`undefined` becomes `0` (and the falsy number `0` stays `0`). -/
def jsOr0 (v : Option ℚ) : ℚ := v.getD 0

/-! ## Fixed-width resampling (`LiveRecorderCanvas` draw) -/

/-- `numBars = Math.floor(width / totalBarWidth)` in the
`LiveRecorderCanvas` draw loop (src/recorder/live-recorder/compound.tsx);
a negative quotient yields zero loop iterations. -/
def fixedSlotCount (width pitch : ℚ) : ℕ := (⌊width / pitch⌋).toNat

/-- `sourceIndex = Math.floor((i / numBars) * frequencies.length)` in the
`LiveRecorderCanvas` draw loop. -/
def resampleIndex (i nb len : ℕ) : ℤ := ⌊((i : ℚ) / (nb : ℚ)) * (len : ℚ)⌋

/-- The resampled slot values of the `LiveRecorderCanvas` draw loop:
slot `i` reads `frequencies[sourceIndex] || 0`. -/
def fixedResample (freqs : List ℚ) (width pitch : ℚ) : List ℚ :=
  let nb := fixedSlotCount width pitch
  (List.range nb).map fun i => jsOr0 (jsGet freqs (resampleIndex i nb freqs.length))

/-- The `LiveRecorderCanvas` rendering effect
(src/recorder/live-recorder/compound.tsx): it returns early — drawing
nothing — when `frequencies.length === 0`, and otherwise draws the
resampled slot values; `none` models the early return. -/
def liveRecorderDraw (freqs : List ℚ) (width pitch : ℚ) : Option (List ℚ) :=
  if freqs.length = 0 then none else some (fixedResample freqs width pitch)

/-! ## Fixed-width branch of `LiveStreamingRecorderCanvas` (stack recorder) -/

/-- `amplitudeIndex = Math.min(Math.floor(i * step), amplitudes.length - 1)`
with `step = amplitudes.length / barsCount`, from the fixed-width branch of
`drawWaveform` in src/recorder/live-streaming/stack-recorder. -/
def stackFixedIndex (len nb i : ℕ) : ℤ :=
  min ⌊(i : ℚ) * ((len : ℚ) / (nb : ℚ))⌋ ((len : ℤ) - 1)

/-- The list of bar heights drawn by the fixed-width branch of
`drawWaveform` in the stack recorder: `barsCount` slots, each of height
`Math.max(2, amplitude * containerHeight * barHeightScale)` where
`amplitude = amplitudes[amplitudeIndex] || 0`. -/
def stackFixedBars (amps : List ℚ) (canvasWidth containerHeight pitch heightScale : ℚ) :
    List ℚ :=
  let nb := (⌊canvasWidth / pitch⌋).toNat
  (List.range nb).map fun i =>
    let amp := jsOr0 (jsGet amps (stackFixedIndex amps.length nb i))
    max 2 (amp * containerHeight * heightScale)

/-! ## Growing-mode canvas width (`drawWaveform`, `growWidth` branch) -/

/-- The `growWidth` branch of `drawWaveform` in
src/recorder/live-streaming/stack-recorder:
`requiredWidth = amplitudes.length * totalBarWidth`,
`calculatedWidth = amplitudes.length > 0 ? requiredWidth : containerWidth`,
`canvasWidth = Math.max(calculatedWidth, prevCanvasWidthRef.current)`. -/
def growCanvasWidth (ampsLen : ℕ) (pitch containerWidth prevWidth : ℚ) : ℚ :=
  let requiredWidth := (ampsLen : ℚ) * pitch
  let calculatedWidth := if 0 < ampsLen then requiredWidth else containerWidth
  max calculatedWidth prevWidth

/-- A session of consecutive growing-mode draws: each draw supplies the
current amplitude count and container width, and the resulting canvas
width is stored back into `prevCanvasWidthRef` for the next draw. -/
def runGrowDraws (draws : List (ℕ × ℚ)) (pitch : ℚ) (prevWidth : ℚ) : ℚ :=
  draws.foldl (fun w d => growCanvasWidth d.1 pitch d.2 w) prevWidth

/-- The canvas-width computation of the `draw` loop in `RecordingWaveform`
(src/recorder/recording-waveform.tsx): on every draw
`Math.max(requiredWidth, container.clientWidth)` with
`requiredWidth = amplitudeData.length * totalBarWidth`; this renderer
keeps no running-maximum width. -/
def recordingCanvasWidth (ampsLen : ℕ) (pitch containerWidth : ℚ) : ℚ :=
  max ((ampsLen : ℚ) * pitch) containerWidth

/-! ## Scroll controller (`RecordingWaveform`) -/

/-- The scroll-relevant state of `RecordingWaveform`:
`isAutoScrollingRef.current` and the container's `scrollLeft`. -/
structure ScrollState where
  autoScroll : Bool
  scrollLeft : ℚ
deriving DecidableEq

/-- The state at session start: `isAutoScrollingRef` is initialised (and
re-initialised at every new recording) to `true`. -/
def initialScrollState : ScrollState := { autoScroll := true, scrollLeft := 0 }

/-- The `handleScroll` listener of `RecordingWaveform`: after the user
scrolls to `newScrollLeft`, recompute
`isAutoScrolling = scrollLeft + clientWidth >= scrollWidth - 10`. -/
def handleScroll (newScrollLeft clientWidth scrollWidth : ℚ) : ScrollState :=
  { autoScroll := decide (newScrollLeft + clientWidth ≥ scrollWidth - 10)
    scrollLeft := newScrollLeft }

/-- The auto-scroll step at the end of every `draw` in `RecordingWaveform`:
`if (isAutoScrolling && requiredWidth > clientWidth)
   scrollLeft = requiredWidth - clientWidth`. -/
def drawAutoScroll (st : ScrollState) (requiredWidth clientWidth : ℚ) : ScrollState :=
  if st.autoScroll ∧ clientWidth < requiredWidth then
    { st with scrollLeft := requiredWidth - clientWidth }
  else st

/-! ## RMS amplitude sampler (`sampleAmplitude` of `useRecordingAmplitudes`) -/

/-- `(dataArray[i] - 128) / 128`: normalisation of one time-domain byte
into `[-1, 1]` in `sampleAmplitude`. -/
def normalizedSample (b : ℤ) : ℚ := ((b : ℚ) - 128) / 128

/-- `sum / bufferLength` where `sum` accumulates `normalized * normalized`
over the time-domain buffer, as in `sampleAmplitude`. -/
def meanSquare (buf : List ℤ) : ℚ :=
  (buf.map fun b => normalizedSample b * normalizedSample b).sum / (buf.length : ℚ)

/-- The amplitude pushed by one `sampleAmplitude` tick:
`rms = Math.sqrt(sum / bufferLength)` and `Math.min(1, rms * 2)`. -/
noncomputable def sampleAmplitude (buf : List ℤ) : ℝ :=
  min 1 (Real.sqrt (meanSquare buf) * 2)

/-- One tick appends the sampled amplitude to the amplitude timeline
(`amplitudeDataRef.current.push(amplitude)`). -/
noncomputable def pushAmplitude (timeline : List ℝ) (buf : List ℤ) : List ℝ :=
  timeline ++ [sampleAmplitude buf]

/-! ## Session state machine of `useRecordingAmplitudes` -/

/-- Events acting on the amplitude timeline of `useRecordingAmplitudes`:
a new capture session (the `mediaRecorder` object identity changes), the
recorder's `pause` and `resume` events, and a sampling-interval tick that
reads the time-domain buffer `buf`. -/
inductive RecEvent where
  | newSession
  | pause
  | resume
  | tick (buf : List ℤ)

/-- State of `useRecordingAmplitudes`: the collected amplitude timeline
(`amplitudeDataRef`), whether the sampling interval is currently running,
and a counter standing for the identity of the current `mediaRecorder`. -/
structure RecState where
  timeline : List ℝ
  sampling : Bool
  session : ℕ

/-- One step of the hook.  A `mediaRecorder` identity change clears the
timeline and (after the 50 ms settle delay) restarts sampling; `pause`
calls `stopSampling` only; `resume` calls `startSampling` only; an
interval tick appends an amplitude only while sampling is active. -/
noncomputable def recStep (s : RecState) : RecEvent → RecState
  | .newSession => { timeline := [], sampling := true, session := s.session + 1 }
  | .pause => { s with sampling := false }
  | .resume => { s with sampling := true }
  | .tick buf =>
      if s.sampling then { s with timeline := pushAmplitude s.timeline buf } else s

/-- Run a sequence of events through the hook. -/
noncomputable def recRun (s : RecState) (es : List RecEvent) : RecState :=
  es.foldl recStep s

/-- Whether an event is a sampling-interval tick. -/
def RecEvent.isTick : RecEvent → Bool
  | .tick _ => true
  | _ => false

/-- A list of events consisting of interval ticks only. -/
def ticksOnly (es : List RecEvent) : Bool := es.all RecEvent.isTick

/-! ## Sampling loop of `RecordingWaveform` (no pause/resume wiring) -/

/-- State of the `RecordingWaveform` sampling loop
(src/recorder/recording-waveform.tsx): the collected timeline
(`amplitudeDataRef`), the recorder's paused flag, and a counter standing
for the identity of the current `mediaRecorder`. -/
structure RWState where
  timeline : List ℝ
  paused : Bool
  session : ℕ

/-- One step of the `RecordingWaveform` sampling effect.  Unlike
`useRecordingAmplitudes`, this component registers no `pause`/`resume`
listeners: the recorder's pause and resume events change only the
recorder's own flag, while the `setInterval(sampleAmplitude)` loop keeps
running until the effect is torn down, so a tick appends regardless of
the paused flag.  A `mediaRecorder` identity change re-runs the effect,
which resets `amplitudeDataRef.current = []` before sampling restarts. -/
noncomputable def rwStep (s : RWState) : RecEvent → RWState
  | .newSession => { timeline := [], paused := false, session := s.session + 1 }
  | .pause => { s with paused := true }
  | .resume => { s with paused := false }
  | .tick buf => { s with timeline := pushAmplitude s.timeline buf }

/-! ## Interval guards (`startSampling` / `stopSampling`) -/

/-- The sampling-interval bookkeeping shared by `useRecordingAmplitudes`
and `LiveStreamingRecorder`: `samplingIntervalRef.current` holds the id of
the running interval or `none`; `active` lists the interval ids currently
registered with the host environment; `nextId` is the next id
`window.setInterval` hands out (interval ids are positive, so the JS
falsiness test `!samplingIntervalRef.current` coincides with the null
test modelled by `Option`). -/
structure SamplerState where
  nextId : ℕ
  active : List ℕ
  samplingInterval : Option ℕ
deriving DecidableEq

/-- `startSampling`: create an interval only when none is recorded in
`samplingIntervalRef`. -/
def startSampling (s : SamplerState) : SamplerState :=
  match s.samplingInterval with
  | some _ => s
  | none =>
      { nextId := s.nextId + 1
        active := s.active ++ [s.nextId]
        samplingInterval := some s.nextId }

/-- `stopSampling`: clear the interval recorded in `samplingIntervalRef`,
if any, and null the ref. -/
def stopSampling (s : SamplerState) : SamplerState :=
  match s.samplingInterval with
  | some id => { s with active := s.active.erase id, samplingInterval := none }
  | none => s

/-- The ref is an accurate record of the intervals this sampler has
registered: exactly the interval named by the ref is active. -/
def SamplerWF (s : SamplerState) : Prop := s.active = s.samplingInterval.toList

/-! ## Signal decoder (modelled from the spec) -/

/-- Modelled from the spec: the SignalDecoder implementation
(`util-audio-decoder`, `decodeAudioBlob`) is exported by the package but
its source file is absent; only its callers are present.  Per the spec,
the mono PCM samples are partitioned into `n` contiguous buckets using
integer division, with the final bucket absorbing the remainder.  Bucket
`i` spans `[i*size, (i+1)*size)` for `i + 1 < n` and `[i*size, total)`
for the last bucket, where `size = total / n`. -/
def bucket (samples : List ℚ) (n i : ℕ) : List ℚ :=
  let size := samples.length / n
  if i + 1 = n then samples.drop (i * size) else (samples.drop (i * size)).take size

/-- Modelled from the spec: the peak of one bucket is the maximum absolute
amplitude across its samples (zero for an empty bucket). -/
def bucketPeak (l : List ℚ) : ℚ := (l.map fun x => |x|).foldr max 0

/-- Modelled from the spec: the per-bucket peaks of the decoder. -/
def bucketPeaks (samples : List ℚ) (n : ℕ) : List ℚ :=
  (List.range n).map fun i => bucketPeak (bucket samples n i)

/-- Modelled from the spec: the global maximum observed across bucket
peaks, used for normalisation. -/
def globalMax (samples : List ℚ) (n : ℕ) : ℚ := (bucketPeaks samples n).foldr max 0

/-- Modelled from the spec: `decode(sourceBytes, sampleCount)` after the
platform decode step has produced mono PCM samples — every bucket peak is
normalised by the global maximum (clamped to 1), a silent signal decoding
to all zeros. -/
def decode (samples : List ℚ) (n : ℕ) : List ℚ :=
  let g := globalMax samples n
  (bucketPeaks samples n).map fun p => if g = 0 then 0 else min 1 (p / g)

/-! ## Playhead seek mapper (modelled from the spec) -/

/-- Modelled from the spec: the `WaveformRenderer` holding the playhead
seek mapper is exported by the package but its source file is absent.
`clamp` restricts a value to `[lo, hi]`. -/
def clamp (x lo hi : ℚ) : ℚ := max lo (min x hi)

/-- Modelled from the spec:
`timeToX(t, duration, logicalWidth) = clamp(t,0,duration)/duration × logicalWidth`. -/
def timeToX (t duration logicalWidth : ℚ) : ℚ :=
  clamp t 0 duration / duration * logicalWidth

/-- Modelled from the spec:
`xToTime(x, duration, logicalWidth) = clamp(x,0,logicalWidth)/logicalWidth × duration`. -/
def xToTime (x duration logicalWidth : ℚ) : ℚ :=
  clamp x 0 logicalWidth / logicalWidth * duration

/-! ## Helper lemmas -/

theorem foldr_max_nonneg (l : List ℚ) : 0 ≤ l.foldr max 0 := by
  induction l with
  | nil => exact le_refl _
  | cons a t ih => exact le_trans ih (le_max_right a _)

theorem le_growCanvasWidth (ampsLen : ℕ) (pitch cw prev : ℚ) :
    prev ≤ growCanvasWidth ampsLen pitch cw prev :=
  le_max_right _ _

theorem le_runGrowDraws (draws : List (ℕ × ℚ)) (pitch prev : ℚ) :
    prev ≤ runGrowDraws draws pitch prev := by
  induction draws generalizing prev with
  | nil => exact le_refl _
  | cons d ds ih =>
      simp only [runGrowDraws, List.foldl_cons]
      exact le_trans (le_growCanvasWidth d.1 pitch d.2 prev) (ih _)

/-! ## Claim theorems -/

/-- Claim C9: `getCanvasBarStyles` treats every falsy bar-style field
(`0`, empty string, `undefined`) as unspecified and substitutes the
defaults (barWidth 3, gap 1, barRadius 1.5), so width 0 or gap 0 cannot
be configured through this interface. -/
theorem getCanvasBarStyles_falsy_defaults (pf : String → ℚ) (color : String)
    (bs : BarStyle) (hw : bs.width.truthy = false) (hg : bs.gap.truthy = false)
    (hr : bs.radius.truthy = false) :
    getCanvasBarStyles pf color bs =
      { barWidth := 3, gap := 1, barRadius := 1.5, barColor := color } := by
  simp [getCanvasBarStyles, styleField, hw, hg, hr]

theorem getCanvasBarStyles_falsy_defaults_witness :
    (JSVal.num 0).truthy = false ∧ (JSVal.str ("")).truthy = false ∧
    JSVal.undef.truthy = false ∧
    getCanvasBarStyles (fun _ => 0) ("red") ⟨JSVal.num 0, JSVal.str (""), JSVal.undef⟩ =
      { barWidth := 3, gap := 1, barRadius := 1.5, barColor := ("red") } :=
  ⟨rfl, rfl, rfl,
    getCanvasBarStyles_falsy_defaults (fun _ => 0) ("red")
      ⟨JSVal.num 0, JSVal.str (""), JSVal.undef⟩ rfl rfl rfl⟩

/-- Claim C10 (counterexample): with an empty source, container width 300
and pitch 4, `LiveRecorderCanvas` computes 75 bar slots but its rendering
effect returns early and draws nothing — it does not draw every computed
bar slot at the 2px minimum as the claim states of both renderers. -/
theorem liveRecorderDraw_empty_skips :
    liveRecorderDraw [] 300 4 = none ∧ fixedSlotCount 300 4 = 75 := by
  constructor
  · simp [liveRecorderDraw]
  · rw [fixedSlotCount]
    norm_num
    rfl

/-- Claim C10 (amended): in the stack recorder's fixed-width branch an
empty source still yields every computed bar slot: the computed index is
`-1`, the JS read yields `undefined`, the `|| 0` fallback turns it into
`0`, and every bar is drawn at the 2px minimum height; `LiveRecorderCanvas`
instead skips rendering entirely when its source is empty (its effect
returns before drawing). -/
theorem stackFixedBars_empty_source (w h pitch scale : ℚ) (nb i : ℕ) :
    stackFixedBars [] w h pitch scale = List.replicate (⌊w / pitch⌋).toNat 2 ∧
    stackFixedIndex 0 nb i = -1 ∧
    jsGet [] (stackFixedIndex 0 nb i) = none ∧
    liveRecorderDraw [] w pitch = none := by
  have hidx : ∀ nb' i' : ℕ, stackFixedIndex 0 nb' i' = -1 := by
    intro nb' i'
    simp [stackFixedIndex]
  refine ⟨?_, hidx nb i, ?_, by simp [liveRecorderDraw]⟩
  · simp only [stackFixedBars, List.length_nil, Nat.cast_zero, hidx, jsGet]
    norm_num [jsOr0]
  · rw [hidx nb i, jsGet]
    norm_num

/-- Claim C4 (counterexample): both cited growing-mode renderers refute
the claimed width formula.  Stack recorder: with one amplitude, pitch 4,
container width 300 and no previous width, `drawWaveform` computes width
4, not `max(data_length × pitch, container_width)` bounded below by the
running maximum, which would be 300.  `RecordingWaveform`: a first draw
with empty data and container 300 gives width 300, and a next draw with
one amplitude after the container shrank to 100 gives width 100 — below
the session's running maximum 300 and below the claimed value
`max(max(1 × 4, 100), 300)`, so the width is not bounded below by the
running maximum and decreases across consecutive draws. -/
theorem growCanvasWidth_not_container_max :
    (growCanvasWidth 1 4 300 0 = 4 ∧
      growCanvasWidth 1 4 300 0 ≠ max (max ((1 : ℚ) * 4) 300) 0) ∧
    (recordingCanvasWidth 0 4 300 = 300 ∧
      recordingCanvasWidth 1 4 100 = 100 ∧
      recordingCanvasWidth 1 4 100 < recordingCanvasWidth 0 4 300 ∧
      recordingCanvasWidth 1 4 100 ≠ max (max ((1 : ℚ) * 4) 100) 300) := by
  refine ⟨⟨?_, ?_⟩, ?_, ?_, ?_, ?_⟩ <;>
    norm_num [growCanvasWidth, recordingCanvasWidth]

/-- Claim C4 (amended): in growing mode the stack recorder computes on
every draw the logical width `max(data_length × pitch, running maximum)`
when data is non-empty and `max(container_width, running maximum)` when
empty, so its width never drops below the running maximum and is
non-decreasing across consecutive draws within one session; the
`RecordingWaveform` draw loop instead computes
`max(data_length × pitch, container_width)` on every draw with no
running-maximum bound, so its width is non-decreasing across consecutive
draws only while the container width does not shrink. -/
theorem growCanvasWidth_monotone (ampsLen : ℕ) (pitch cw prev : ℚ) :
    (0 < ampsLen →
      growCanvasWidth ampsLen pitch cw prev = max ((ampsLen : ℚ) * pitch) prev) ∧
    (ampsLen = 0 → growCanvasWidth ampsLen pitch cw prev = max cw prev) ∧
    prev ≤ growCanvasWidth ampsLen pitch cw prev ∧
    (∀ draws : List (ℕ × ℚ), prev ≤ runGrowDraws draws pitch prev) ∧
    recordingCanvasWidth ampsLen pitch cw = max ((ampsLen : ℚ) * pitch) cw ∧
    ∀ len2 : ℕ, ∀ cw2 : ℚ, ampsLen ≤ len2 → cw ≤ cw2 → 0 ≤ pitch →
      recordingCanvasWidth ampsLen pitch cw ≤ recordingCanvasWidth len2 pitch cw2 := by
  refine ⟨fun h => ?_, fun h => ?_, le_growCanvasWidth _ _ _ _,
    fun draws => le_runGrowDraws draws pitch prev, rfl,
    fun len2 cw2 h1 h2 h3 => ?_⟩
  · simp [growCanvasWidth, h]
  · simp [growCanvasWidth, h]
  · exact max_le_max
      (mul_le_mul_of_nonneg_right (by exact_mod_cast h1) h3) h2

theorem growCanvasWidth_monotone_witness :
    (0 < 25 ∧ growCanvasWidth 25 4 300 120 = max ((25 : ℚ) * 4) 120) ∧
    ((2 : ℕ) ≤ 5 ∧ (100 : ℚ) ≤ 120 ∧ (0 : ℚ) ≤ 4 ∧
      recordingCanvasWidth 2 4 100 ≤ recordingCanvasWidth 5 4 120) :=
  ⟨⟨by norm_num, (growCanvasWidth_monotone 25 4 300 120).1 (by norm_num)⟩,
    by norm_num, by norm_num, by norm_num,
    (growCanvasWidth_monotone 2 4 100 0).2.2.2.2.2 5 120
      (by norm_num) (by norm_num) (by norm_num)⟩

/-- Claim C7 (counterexample): with auto-scroll enabled but content
narrower than the viewport (content width 100, viewport 200), the draw
step of `RecordingWaveform` leaves the scroll offset unchanged instead of
setting it to `contentWidth - viewportWidth`. -/
theorem drawAutoScroll_skips_narrow_content :
    initialScrollState.autoScroll = true ∧
    drawAutoScroll initialScrollState 100 200 = initialScrollState ∧
    (drawAutoScroll initialScrollState 100 200).scrollLeft ≠ 100 - 200 := by
  refine ⟨rfl, ?_, ?_⟩ <;> norm_num [drawAutoScroll, initialScrollState]

/-- Claim C7 (amended): the scroll controller starts with auto-scroll
enabled; every user scroll event recomputes
`autoScrollEnabled = (scrollOffset + viewportWidth) ≥ (contentWidth - 10)`;
and while auto-scroll is enabled, every draw whose content width exceeds
the viewport width sets `scrollOffset = contentWidth - viewportWidth`,
while a draw whose content fits the viewport leaves the state unchanged. -/
theorem scroll_controller_spec (st : ScrollState) (sl cw sw rw : ℚ) :
    initialScrollState.autoScroll = true ∧
    (handleScroll sl cw sw).autoScroll = decide (sl + cw ≥ sw - 10) ∧
    (handleScroll sl cw sw).scrollLeft = sl ∧
    (st.autoScroll = true → cw < rw →
      (drawAutoScroll st rw cw).scrollLeft = rw - cw) ∧
    (rw ≤ cw → drawAutoScroll st rw cw = st) := by
  refine ⟨rfl, rfl, rfl, fun h1 h2 => ?_, fun h => ?_⟩
  · simp [drawAutoScroll, h1, h2]
  · simp [drawAutoScroll, not_lt.mpr h]

theorem scroll_controller_spec_witness :
    initialScrollState.autoScroll = true ∧ (200 : ℚ) < 300 ∧
    (drawAutoScroll initialScrollState 300 200).scrollLeft = 300 - 200 :=
  ⟨rfl, by norm_num,
    (scroll_controller_spec initialScrollState 0 200 0 300).2.2.2.1 rfl (by norm_num)⟩

/-- Claim C5: in fixed mode the number of bar slots equals
`floor(logicalWidth / (barWidth+gap))`; slot `i` reads the source at
nearest-neighbour index `floor(i / slotCount * sourceLength)`, which is
in bounds for non-empty sources; and the stack recorder's
`min(floor(i * step), length - 1)` index agrees with that formula. -/
theorem fixedResample_slots (freqs : List ℚ) (width pitch : ℚ) (hne : freqs ≠ []) :
    (fixedResample freqs width pitch).length = fixedSlotCount width pitch ∧
    ∀ i < fixedSlotCount width pitch,
      0 ≤ resampleIndex i (fixedSlotCount width pitch) freqs.length ∧
      resampleIndex i (fixedSlotCount width pitch) freqs.length < (freqs.length : ℤ) ∧
      (fixedResample freqs width pitch).getD i 0 =
        freqs.getD (resampleIndex i (fixedSlotCount width pitch) freqs.length).toNat 0 ∧
      stackFixedIndex freqs.length (fixedSlotCount width pitch) i =
        resampleIndex i (fixedSlotCount width pitch) freqs.length := by
  have hlen : 0 < freqs.length := List.length_pos.mpr hne
  refine ⟨by simp [fixedResample], fun i hi => ?_⟩
  set nb := fixedSlotCount width pitch with hnbdef
  have hnbpos : 0 < nb := lt_of_le_of_lt (Nat.zero_le i) hi
  have hq : (0 : ℚ) < (nb : ℚ) := by exact_mod_cast hnbpos
  have hlq : (0 : ℚ) < (freqs.length : ℚ) := by exact_mod_cast hlen
  have harg : ((i : ℚ) / (nb : ℚ)) * (freqs.length : ℚ) < (freqs.length : ℚ) := by
    have hdiv : (i : ℚ) / (nb : ℚ) < 1 := (div_lt_one hq).mpr (by exact_mod_cast hi)
    calc ((i : ℚ) / (nb : ℚ)) * (freqs.length : ℚ)
        < 1 * (freqs.length : ℚ) := mul_lt_mul_of_pos_right hdiv hlq
      _ = (freqs.length : ℚ) := one_mul _
  have h0 : 0 ≤ resampleIndex i nb freqs.length :=
    Int.floor_nonneg.mpr (by positivity)
  have hlt : resampleIndex i nb freqs.length < (freqs.length : ℤ) := by
    rw [resampleIndex]
    exact Int.floor_lt.mpr (by exact_mod_cast harg)
  have hnat : (resampleIndex i nb freqs.length).toNat < freqs.length := by omega
  refine ⟨h0, hlt, ?_, ?_⟩
  · simp only [fixedResample, List.getD_eq_getElem?_getD, List.getElem?_map,
      List.getElem?_range hi, Option.map_some', Option.getD_some, jsOr0, jsGet,
      if_pos h0, List.getElem?_eq_getElem hnat]
  · simp only [stackFixedIndex]
    rw [show (i : ℚ) * ((freqs.length : ℚ) / (nb : ℚ))
        = ((i : ℚ) / (nb : ℚ)) * (freqs.length : ℚ) from by ring]
    have hlt' : ⌊((i : ℚ) / (nb : ℚ)) * (freqs.length : ℚ)⌋ < (freqs.length : ℤ) := by
      rw [resampleIndex] at hlt
      exact hlt
    rw [resampleIndex]
    omega

theorem fixedResample_slots_witness :
    ([(5 : ℚ), 6, 7] ≠ []) ∧
    (fixedResample [5, 6, 7] 8 4).length = fixedSlotCount 8 4 ∧
    resampleIndex 1 (fixedSlotCount 8 4) 3 < (3 : ℤ) :=
  ⟨by decide, (fixedResample_slots [5, 6, 7] 8 4 (by decide)).1,
    ((fixedResample_slots [5, 6, 7] 8 4 (by decide)).2 1 (by norm_num [fixedSlotCount])).2.1⟩

/-- Claim C8: at most one sampling loop is active per session: starting
while an interval is recorded is a no-op, stopping is idempotent and is
safe when no interval is active, and from a well-formed state both
operations preserve well-formedness and leave at most one live interval. -/
theorem sampling_loop_guards (s : SamplerState) :
    (s.samplingInterval ≠ none → startSampling s = s) ∧
    stopSampling (stopSampling s) = stopSampling s ∧
    (s.samplingInterval = none → stopSampling s = s) ∧
    (SamplerWF s →
      SamplerWF (startSampling s) ∧ SamplerWF (stopSampling s) ∧
      (startSampling s).active.length ≤ 1 ∧ (stopSampling s).active = []) := by
  obtain ⟨nid, act, si⟩ := s
  cases si with
  | none =>
      refine ⟨fun h => absurd rfl h, rfl, fun _ => rfl, fun hwf => ?_⟩
      have ha : act = [] := hwf
      subst ha
      exact ⟨rfl, rfl, le_refl 1, rfl⟩
  | some id =>
      refine ⟨fun _ => rfl, rfl, fun h => Option.noConfusion h, fun hwf => ?_⟩
      have ha : act = [id] := hwf
      subst ha
      refine ⟨hwf, ?_, le_refl 1, ?_⟩
      · show ([id].erase id) = Option.toList none
        simp
      · show ([id].erase id) = []
        simp

theorem sampling_loop_guards_witness :
    ((⟨2, [1], some 1⟩ : SamplerState).samplingInterval ≠ none) ∧
    startSampling ⟨2, [1], some 1⟩ = ⟨2, [1], some 1⟩ ∧
    SamplerWF ⟨2, [1], some 1⟩ ∧
    (stopSampling (⟨2, [1], some 1⟩ : SamplerState)).active = [] :=
  ⟨by decide, (sampling_loop_guards ⟨2, [1], some 1⟩).1 (by decide), rfl,
    ((sampling_loop_guards ⟨2, [1], some 1⟩).2.2.2 rfl).2.2.2⟩

/-- Claim C6: `xToTime` inverts `timeToX` exactly (the rational model has
no floating-point rounding): for `t ∈ [0, duration]`, positive duration
and positive logical width, the round trip returns `t`. -/
theorem xToTime_timeToX (t duration logicalWidth : ℚ)
    (hd : 0 < duration) (hw : 0 < logicalWidth) (ht0 : 0 ≤ t) (ht1 : t ≤ duration) :
    xToTime (timeToX t duration logicalWidth) duration logicalWidth = t := by
  have hclamp : clamp t 0 duration = t := by
    rw [clamp, min_eq_left ht1, max_eq_right ht0]
  rw [timeToX, hclamp, xToTime]
  have hx0 : (0 : ℚ) ≤ t / duration * logicalWidth := by positivity
  have hx1 : t / duration * logicalWidth ≤ logicalWidth := by
    have h1 : t / duration ≤ 1 := (div_le_one hd).mpr ht1
    calc t / duration * logicalWidth
        ≤ 1 * logicalWidth := mul_le_mul_of_nonneg_right h1 (le_of_lt hw)
      _ = logicalWidth := one_mul _
  rw [clamp, min_eq_left hx1, max_eq_right hx0]
  have hd' : duration ≠ 0 := ne_of_gt hd
  have hw' : logicalWidth ≠ 0 := ne_of_gt hw
  field_simp
  ring

theorem xToTime_timeToX_witness :
    (0 : ℚ) < 120 ∧ (0 : ℚ) < 600 ∧ (0 : ℚ) ≤ 30 ∧ (30 : ℚ) ≤ 120 ∧
    xToTime (timeToX 30 120 600) 120 600 = 30 :=
  ⟨by norm_num, by norm_num, by norm_num, by norm_num,
    xToTime_timeToX 30 120 600 (by norm_num) (by norm_num) (by norm_num) (by norm_num)⟩

theorem ratCast_list_sum (l : List ℚ) :
    ((l.sum : ℚ) : ℝ) = (l.map fun q : ℚ => (q : ℝ)).sum := by
  induction l with
  | nil => simp
  | cons a t ih => simp [ih]

theorem meanSquare_cast (buf : List ℤ) :
    ((meanSquare buf : ℚ) : ℝ) =
      (buf.map fun b : ℤ => (((b : ℝ) - 128) / 128) ^ 2).sum / (buf.length : ℝ) := by
  rw [meanSquare, Rat.cast_div, ratCast_list_sum, List.map_map]
  have hfun : ((fun q : ℚ => (q : ℝ)) ∘ fun b : ℤ =>
      normalizedSample b * normalizedSample b)
      = fun b : ℤ => (((b : ℝ) - 128) / 128) ^ 2 := by
    funext b
    simp only [Function.comp_apply, normalizedSample]
    push_cast
    ring
  rw [hfun]
  norm_cast

/-- Claim C2: each `sampleAmplitude` tick appends
`min(1, 2·√(mean(((bᵢ - 128)/128)² over i < bufferLength)))` to the
timeline, and the appended amplitude lies in `[0, 1]`. -/
theorem pushAmplitude_rms (timeline : List ℝ) (buf : List ℤ) (hbuf : 0 < buf.length) :
    pushAmplitude timeline buf =
      timeline ++ [min 1 (2 * Real.sqrt
        ((buf.map fun b : ℤ => (((b : ℝ) - 128) / 128) ^ 2).sum / (buf.length : ℝ)))] ∧
    0 ≤ sampleAmplitude buf ∧ sampleAmplitude buf ≤ 1 := by
  have hs : sampleAmplitude buf =
      min 1 (2 * Real.sqrt
        ((buf.map fun b : ℤ => (((b : ℝ) - 128) / 128) ^ 2).sum / (buf.length : ℝ))) := by
    rw [sampleAmplitude, meanSquare_cast, mul_comm]
  refine ⟨by rw [pushAmplitude, hs], ?_, ?_⟩
  · rw [sampleAmplitude]
    exact le_min zero_le_one (by positivity)
  · rw [sampleAmplitude]
    exact min_le_left _ _

theorem pushAmplitude_rms_witness :
    0 < [(128 : ℤ)].length ∧
    (0 ≤ sampleAmplitude [(128 : ℤ)] ∧ sampleAmplitude [(128 : ℤ)] ≤ 1) :=
  ⟨by decide, (pushAmplitude_rms [] [(128 : ℤ)] (by decide)).2⟩

theorem recRun_paused (s : RecState) (hs : s.sampling = false) :
    ∀ es : List RecEvent, ticksOnly es = true → recRun s es = s := by
  intro es
  induction es with
  | nil => intro _; rfl
  | cons e es ih =>
      intro hts
      rw [ticksOnly, List.all_cons, Bool.and_eq_true] at hts
      have hstep : recStep s e = s := by
        cases e with
        | tick buf => simp [recStep, hs]
        | newSession => simp [RecEvent.isTick] at hts
        | pause => simp [RecEvent.isTick] at hts
        | resume => simp [RecEvent.isTick] at hts
      show (e :: es).foldl recStep s = s
      rw [List.foldl_cons, hstep]
      exact ih hts.2

/-- Claim C3 (counterexample): the cited `RecordingWaveform` sampling
effect registers no pause/resume listeners, so the interval is not
stopped on pause: from an empty timeline, pausing and then one interval
tick leaves the recorder paused yet grows the timeline from length 0 to
length 1 — the timeline length does not stay constant while paused. -/
theorem recordingWaveform_pause_appends :
    (rwStep (⟨[], false, 0⟩ : RWState) .pause).paused = true ∧
    (rwStep (⟨[], false, 0⟩ : RWState) .pause).timeline.length = 0 ∧
    (rwStep (rwStep ⟨[], false, 0⟩ .pause) (.tick [0])).paused = true ∧
    (rwStep (rwStep ⟨[], false, 0⟩ .pause) (.tick [0])).timeline.length = 1 := by
  simp [rwStep, pushAmplitude]

/-- Claim C3 (amended): in `useRecordingAmplitudes`, while paused no tick
changes the timeline, pause and resume themselves preserve it, after
pause then resume a tick appends to the preserved contents, and the
timeline is cleared exactly by a new capture session (a session-identity
change), never by pause or resume.  In the `RecordingWaveform` component
the sampling interval is not wired to pause/resume, so a tick appends
even while the recorder is paused; there too pause and resume preserve
the timeline and only a new session clears it. -/
theorem timeline_pause_resume_session (s : RecState) (s2 : RWState)
    (buf : List ℤ) (es : List RecEvent) :
    (s.sampling = false → ticksOnly es = true → (recRun s es).timeline = s.timeline) ∧
    (recStep s .pause).timeline = s.timeline ∧
    (recStep s .resume).timeline = s.timeline ∧
    (recRun s [.pause, .resume, .tick buf]).timeline =
      s.timeline ++ [sampleAmplitude buf] ∧
    (recStep s .newSession).timeline = [] ∧
    (recStep s .newSession).session ≠ s.session ∧
    (rwStep s2 (.tick buf)).timeline = s2.timeline ++ [sampleAmplitude buf] ∧
    (rwStep s2 .pause).timeline = s2.timeline ∧
    (rwStep s2 .resume).timeline = s2.timeline ∧
    (rwStep s2 .newSession).timeline = [] := by
  refine ⟨fun hs hts => by rw [recRun_paused s hs es hts], rfl, rfl, ?_, rfl,
    Nat.succ_ne_self _, rfl, rfl, rfl, rfl⟩
  simp [recRun, recStep, pushAmplitude]

theorem timeline_pause_resume_session_witness :
    (RecState.mk [] false 0).sampling = false ∧
    ticksOnly [RecEvent.tick [0]] = true ∧
    (recRun ⟨[], false, 0⟩ [RecEvent.tick [0]]).timeline = ([] : List ℝ) :=
  ⟨rfl, rfl,
    (timeline_pause_resume_session ⟨[], false, 0⟩ ⟨[], false, 0⟩ [0]
      [RecEvent.tick [0]]).1 rfl rfl⟩

theorem bucketPeak_nonneg (l : List ℚ) : 0 ≤ bucketPeak l :=
  foldr_max_nonneg _

theorem bucket_flatten_aux (samples : List ℚ) (n : ℕ) :
    ∀ m, m < n →
      ((List.range m).map (bucket samples n)).flatten
        = samples.take (m * (samples.length / n)) := by
  intro m
  induction m with
  | zero => intro _; simp
  | succ k ih =>
      intro h
      rw [List.range_succ, List.map_append, List.flatten_append,
        ih (Nat.lt_of_succ_lt h)]
      have hk : k + 1 ≠ n := Nat.ne_of_lt h
      simp only [List.map_cons, List.map_nil, List.flatten_cons, List.flatten_nil,
        List.append_nil, bucket, if_neg hk]
      rw [← List.take_add, Nat.succ_mul]

theorem bucket_flatten (samples : List ℚ) (n : ℕ) (hn : 0 < n) :
    ((List.range n).map (bucket samples n)).flatten = samples := by
  obtain ⟨m, rfl⟩ : ∃ m, n = m + 1 := ⟨n - 1, (Nat.succ_pred_eq_of_pos hn).symm⟩
  rw [List.range_succ, List.map_append, List.flatten_append,
    bucket_flatten_aux samples (m + 1) m (Nat.lt_succ_self m)]
  simp only [List.map_cons, List.map_nil, List.flatten_cons, List.flatten_nil,
    List.append_nil, bucket, if_pos rfl]
  exact List.take_append_drop _ _

/-- Claim C1: for `n > 0`, `decode` returns exactly `n` values, all in
`[0, 1]`, computed from a partition of the source samples into `n`
contiguous buckets by integer division whose in-order concatenation
recovers the whole sample list — the final bucket absorbs the remainder,
no samples are dropped, and no bucket overlaps another. -/
theorem decode_length_range_partition (samples : List ℚ) (n : ℕ) (hn : 0 < n) :
    (decode samples n).length = n ∧
    (∀ v ∈ decode samples n, 0 ≤ v ∧ v ≤ 1) ∧
    ((List.range n).map (bucket samples n)).flatten = samples := by
  refine ⟨by simp [decode, bucketPeaks], fun v hv => ?_,
    bucket_flatten samples n hn⟩
  simp only [decode, List.mem_map] at hv
  obtain ⟨p, hp, rfl⟩ := hv
  by_cases hg : globalMax samples n = 0
  · simp [hg]
  · have hg0 : 0 ≤ globalMax samples n := foldr_max_nonneg _
    have hp0 : 0 ≤ p := by
      simp only [bucketPeaks, List.mem_map] at hp
      obtain ⟨i, _, rfl⟩ := hp
      exact bucketPeak_nonneg _
    rw [if_neg hg]
    exact ⟨le_min zero_le_one (div_nonneg hp0 hg0), min_le_left _ _⟩

theorem decode_length_range_partition_witness :
    0 < 2 ∧
    ((decode [1, -2, 3, 4] 2).length = 2 ∧
      (∀ v ∈ decode [1, -2, 3, 4] 2, 0 ≤ v ∧ v ≤ 1) ∧
      ((List.range 2).map (bucket [1, -2, 3, 4] 2)).flatten = [1, -2, 3, 4]) :=
  ⟨by norm_num, decode_length_range_partition [1, -2, 3, 4] 2 (by norm_num)⟩

end AudioWaveform
